import Mathlib

/-! # ZCU104 FFT reference design: the DMA test harness `main.c`

A shallow embedding of `src/software/ZCU104_FFT_8192/src/main.c`:

* `reverseBits`, the bit reversal of an index (lines 429-441);
* the reordering loop and the print loop of `CheckData` (lines 386-427);
* `XAxiDma_SimplePollExample` and the entry point (lines 177-368), as functions from a
  description of what the platform answers (`World`) to the sequence of calls made and the
  way the run ends (`Run`).

C `unsigned int` and `int` are 32 bits wide; their values are kept in `Nat` and `Int`
with the conversions written out.  Console output (`printf`) and the loading of the two
text files are not traced: the file contents are the fields `input` and `output_ref`
of the `World`.
-/

namespace ZCU104

/-! ## Machine integers -/

/-- Conversion of an `int` to `unsigned int`: reduction modulo `2 ^ 32`. -/
def toUnsigned (x : Int) : Nat := (x % 2 ^ 32).toNat

/-- Conversion of an `unsigned int` to `int`: values from `2 ^ 31` on wrap to negative. -/
def toInt (u : Nat) : Int := if u < 2 ^ 31 then (u : Int) else (u : Int) - 2 ^ 32

/-- The C expression `1 << s` used as an `unsigned int`.  For `s ≤ 30` this is the exact
C value `2 ^ s`; for `s = 31` it is the bit pattern every 32-bit compiler produces.  A
shift count of 32 or more has no defined C value and is not reached for widths up to 32. -/
def shl1 (s : Nat) : Nat := (1 <<< s) % 2 ^ 32

/-! ## `reverseBits` (main.c, lines 429-441) -/

/-- One pass through the body of the `for` loop of `reverseBits`, for loop counter `i`:
`if (num & (1 << i)) reverse_num |= 1 << ((NO_OF_BITS - 1) - i);`. -/
def reverseBits_body (num NO_OF_BITS : Nat) (reverse_num i : Nat) : Nat :=
  if num &&& shl1 i ≠ 0 then reverse_num ||| shl1 ((NO_OF_BITS - 1) - i) else reverse_num

/-- The function `unsigned int reverseBits(unsigned int num, int num_of_bit)`:
`NO_OF_BITS` is `num_of_bit` converted to `unsigned int`, `reverse_num` starts at `0`
and the loop counter `i` runs over `0, 1, ..., NO_OF_BITS - 1`. -/
def reverseBits (num : Nat) (num_of_bit : Int) : Nat :=
  let NO_OF_BITS := toUnsigned num_of_bit
  (List.range NO_OF_BITS).foldl (reverseBits_body num NO_OF_BITS) 0

/-! ## The sample arrays and the loops of `CheckData` (main.c, lines 386-427) -/

/-- The constant `FFT_LEN`. -/
def FFT_LEN : Nat := 8192

/-- The type `complex` of main.c, a pair of `float` fields.  The harness only copies
samples, so the type `F` of a `float` value is left open. -/
structure complex (F : Type) where
  real : F
  imag : F

/-- An array `complex a[FFT_LEN]`: exactly `FFT_LEN` samples. -/
structure Samples (F : Type) where
  data : Array (complex F)
  size_eq : data.size = FFT_LEN

/-- The element `a[i]` for an index inside the array. -/
def Samples.get {F : Type} (a : Samples F) (i : Fin FFT_LEN) : complex F :=
  a.data.get ⟨i.val, by rw [a.size_eq]; exact i.isLt⟩

/-- A read of `a[Index]`; `none` when `Index` lies outside the array. -/
def Samples.read {F : Type} (a : Samples F) (Index : Nat) : Option (complex F) :=
  a.data[Index]?

/-- The array after the assignment `a[i] = v` for an index inside the array. -/
def Samples.set {F : Type} (a : Samples F) (i : Fin FFT_LEN) (v : complex F) : Samples F :=
  ⟨a.data.set ⟨i.val, by rw [a.size_eq]; exact i.isLt⟩ v, by rw [Array.size_set, a.size_eq]⟩

/-- The array with all entries equal to `v`. -/
def Samples.const {F : Type} (v : complex F) : Samples F :=
  ⟨Array.mkArray FFT_LEN v, Array.size_mkArray FFT_LEN v⟩

/-- Modelled from the spec: the value of the width argument `(int)(log(FFT_LEN)/log(2))`
passed to `reverseBits` in `CheckData`, a floating-point expression that has no
counterpart here; the spec states that `log2(FFT_LEN)` for 8192 is 13. -/
def LOG2_FFT_LEN : Int := 13

/-- The assignment `a[idx].real = v` on an array of `FFT_LEN` samples; `none` when `idx`
lies outside the array. -/
def store_real {F : Type} (a : Samples F) (idx : Int) (v : F) : Option (Samples F) :=
  if h : 0 ≤ idx ∧ idx < (FFT_LEN : Int) then
    let k : Fin FFT_LEN := ⟨idx.toNat, by omega⟩
    some (a.set k ⟨v, (a.get k).imag⟩)
  else none

/-- The assignment `a[idx].imag = v` on an array of `FFT_LEN` samples; `none` when `idx`
lies outside the array. -/
def store_imag {F : Type} (a : Samples F) (idx : Int) (v : F) : Option (Samples F) :=
  if h : 0 ≤ idx ∧ idx < (FFT_LEN : Int) then
    let k : Fin FFT_LEN := ⟨idx.toNat, by omega⟩
    some (a.set k ⟨(a.get k).real, v⟩)
  else none

/-- One pass through the body of the reordering loop of `CheckData` (lines 402-404) for
the loop counter `Index`, with `width` standing for the second argument of `reverseBits`:
`bitrevord` is the result of `reverseBits` converted to `int`, and the two fields of
`RxPacket[Index]` are read and stored into `output[bitrevord]` one after the other. -/
def CheckData_reorder_body {F : Type} (width : Int) (RxPacket : Samples F)
    (output : Samples F) (Index : Nat) : Option (Samples F) :=
  let bitrevord : Int := toInt (reverseBits (toUnsigned (Index : Int)) width)
  (RxPacket.read Index).bind fun sample1 =>
  (store_real output bitrevord sample1.real).bind fun output1 =>
  (RxPacket.read Index).bind fun sample2 =>
  store_imag output1 bitrevord sample2.imag

/-- The reordering loop of `CheckData` (lines 401-405):
`for (Index = 0; Index < FFT_LEN; Index++)`.  The result is the array `output` after
the loop, or `none` if some read or store fell outside its array. -/
def CheckData_reorder {F : Type} (width : Int) (RxPacket output : Samples F) :
    Option (Samples F) :=
  (List.range FFT_LEN).foldlM (CheckData_reorder_body width RxPacket) output

/-! ## Status codes, mappings and the calls of a run -/

/-- Modelled from the spec: the status code for success, from the Xilinx header `xstatus.h`,
which is not among the sources; the spec only names a success and a failure code. -/
def XST_SUCCESS : Int := 0

/-- Modelled from the spec: the status code for failure, from the Xilinx header `xstatus.h`,
which is not among the sources; it differs from the success code. -/
def XST_FAILURE : Int := 1

/-- The pointer value `MAP_FAILED` of `<sys/mman.h>`, `(void *) -1`, that `mmap` returns
when it cannot map; pointers are 64 bits wide on the target. -/
def MAP_FAILED : Nat := 2 ^ 64 - 1

/-- The constant `NUMBER_OF_TRANSFERS`. -/
def NUMBER_OF_TRANSFERS : Nat := 1

/-- The two transfer directions of the DMA driver. -/
inductive Direction where
  | XAXIDMA_DMA_TO_DEVICE
  | XAXIDMA_DEVICE_TO_DMA
  deriving DecidableEq

/-- The three regions mapped by `XAxiDma_SimplePollExample`. -/
inductive Region where
  | TX_BUFFER_BASE
  | RX_BUFFER_BASE
  | BaseAddr
  deriving DecidableEq

/-- The calls and buffer accesses of a run, in the order of the source, each with the
arguments that matter and the value it returned. -/
inductive Call where
  /-- A call of `mmap` for one region (lines 277, 279, 292), with the pointer returned. -/
  | mmap (region : Region) (ret : Nat)
  /-- The call `XAxiDma_LookupConfig(DeviceId)` (line 286); `CfgPtr` is `none` for `NULL`,
  otherwise the register base address of the configuration found. -/
  | XAxiDma_LookupConfig (DeviceId : Nat) (CfgPtr : Option Nat)
  /-- The call `XAxiDma_CfgInitialize` (line 295), with the base address handed over. -/
  | XAxiDma_CfgInitialize (BaseAddr : Nat) (Status : Int)
  /-- The test `XAxiDma_HasSg(&AxiDma)` (line 303). -/
  | XAxiDma_HasSg (ret : Bool)
  /-- A call `XAxiDma_IntrDisable` (lines 310-313). -/
  | XAxiDma_IntrDisable (Direction : Direction)
  /-- The loop of lines 315-322 that writes `input` through `TxBufferPtr`. -/
  | TxBuffer_write (TxBufferPtr : Nat)
  /-- A call `XAxiDma_SimpleTransfer` (lines 334, 343) in pass `Index` of the transfer loop. -/
  | XAxiDma_SimpleTransfer (Index : Nat) (Direction : Direction) (Status : Int)
  /-- A call `XAxiDma_Busy` (lines 352-353) in pass `Index` of the transfer loop. -/
  | XAxiDma_Busy (Index : Nat) (Direction : Direction) (ret : Bool)
  /-- The call `CheckData()` (line 358) in pass `Index` of the transfer loop. -/
  | CheckData (Index : Nat)
  deriving DecidableEq

/-- How a run ends: a `return` with a status, a memory fault on an access through a
pointer equal to `MAP_FAILED` (or on a store outside an array), or a poll loop that is
still spinning when the fuel is used up. -/
inductive Outcome where
  | returned (Status : Int)
  | fault
  | hang
  deriving DecidableEq

/-- The calls made by a run, oldest first, and the way the run ended. -/
structure Run where
  trace : List Call
  result : Outcome
  deriving DecidableEq

/-- What the platform answers to the harness: the compile-time size of `complex`, the
device id, the contents of the two text files, the initial content of `output`, and the
value returned by every call, indexed by what the call can depend on. -/
structure World (F : Type) where
  /-- The value of `sizeof(complex)`. -/
  sizeof_complex : Nat
  /-- The constant `DMA_DEV_ID` of `xparameters.h`. -/
  DMA_DEV_ID : Nat
  /-- The samples read from `x_8192.txt`. -/
  input : Samples F
  /-- The samples read from `y_8192.txt`. -/
  output_ref : Samples F
  /-- The content of the global array `output` before the run. -/
  output : Samples F
  /-- The pointer returned by the `mmap` of the transmit buffer. -/
  mmap_TxBuffer : Nat
  /-- The pointer returned by the `mmap` of the receive buffer. -/
  mmap_RxBuffer : Nat
  /-- The answer of `XAxiDma_LookupConfig` for a device id. -/
  XAxiDma_LookupConfig : Nat → Option Nat
  /-- The pointer returned by the `mmap` of the registers at a physical base address. -/
  mmap_BaseAddr : Nat → Nat
  /-- The status of `XAxiDma_CfgInitialize` for a mapped base address. -/
  XAxiDma_CfgInitialize : Nat → Int
  /-- The answer of `XAxiDma_HasSg`. -/
  XAxiDma_HasSg : Bool
  /-- The status of `XAxiDma_SimpleTransfer` in a pass of the transfer loop. -/
  XAxiDma_SimpleTransfer : Nat → Direction → Int
  /-- The answer of `XAxiDma_Busy` in a pass of the transfer loop, at a round of the poll loop. -/
  XAxiDma_Busy : Nat → Nat → Direction → Bool
  /-- The content of the receive buffer when `CheckData` runs in a pass of the transfer loop. -/
  RxBuffer : Nat → Samples F

/-- The memory behind a pointer returned by `mmap`: there is none behind `MAP_FAILED`. -/
def deref {α : Type} (ptr : Nat) (mem : α) : Option α :=
  if ptr = MAP_FAILED then none else some mem

/-! ## `CheckData` (main.c, lines 386-427) -/

/-- The print loop of `CheckData` (lines 407-424): the lines written for the last 16
indices, each with the index, `output[Index]` and `output_ref[Index]`. -/
def CheckData_print {F : Type} (output output_ref : Samples F) :
    List (Nat × complex F × complex F) :=
  ((List.finRange FFT_LEN).filter (fun Index => decide (FFT_LEN - 16 ≤ Index.val))).map
    (fun Index => (Index.val, output.get Index, output_ref.get Index))

/-- What `CheckData` leaves behind: the way it ended, the array `output` and the lines
it printed. -/
structure CheckData_result (F : Type) where
  result : Outcome
  output : Samples F
  printed : List (Nat × complex F × complex F)

/-- The function `CheckData`.  `RxPacket` is the memory behind the global `RxBufferPtr`
(`none` if that pointer is `MAP_FAILED`, in which case the first read faults).  The
cache invalidation of line 399 is compiled out on the 64-bit ARM target.  The only
`return` statement is `return XST_SUCCESS` (line 426). -/
def CheckData {F : Type} (RxPacket : Option (Samples F))
    (output output_ref : Samples F) : CheckData_result F :=
  match RxPacket with
  | none => ⟨Outcome.fault, output, []⟩
  | some Rx =>
    match CheckData_reorder LOG2_FFT_LEN Rx output with
    | none => ⟨Outcome.fault, output, []⟩
    | some output1 =>
      ⟨Outcome.returned XST_SUCCESS, output1, CheckData_print output1 output_ref⟩

/-! ## `XAxiDma_SimplePollExample` and the entry point (main.c, lines 177-368) -/

/-- The poll loop of lines 352-355,
`while (XAxiDma_Busy(DEVICE_TO_DMA) || XAxiDma_Busy(DMA_TO_DEVICE)) { }`:
each round asks the receive channel first and the transmit channel only if the receive
channel is idle.  `fuel` bounds the number of rounds; the result is the extended trace and
whether the loop was left. -/
def busy_wait (Busy : Nat → Direction → Bool) (Index : Nat) :
    Nat → Nat → List Call → List Call × Bool
  | 0, _, t => (t, false)
  | fuel + 1, round, t =>
    let t1 := t ++ [Call.XAxiDma_Busy Index Direction.XAXIDMA_DEVICE_TO_DMA
      (Busy round Direction.XAXIDMA_DEVICE_TO_DMA)]
    if Busy round Direction.XAXIDMA_DEVICE_TO_DMA then
      busy_wait Busy Index fuel (round + 1) t1
    else
      let t2 := t1 ++ [Call.XAxiDma_Busy Index Direction.XAXIDMA_DMA_TO_DEVICE
        (Busy round Direction.XAXIDMA_DMA_TO_DEVICE)]
      if Busy round Direction.XAXIDMA_DMA_TO_DEVICE then
        busy_wait Busy Index fuel (round + 1) t2
      else (t2, true)

/-- The transfer loop of lines 331-363, `for (Index = 0; Index < Tries; Index++)`, with
`remaining = Tries - Index` passes still to run, `output` the current content of the
global array and `t` the trace so far.  Leaving the loop leads to `return XST_SUCCESS`
(line 367). -/
def transfer_loop {F : Type} (w : World F) (fuel : Nat) :
    Nat → Nat → (Samples F) → List Call → Run
  | 0, _, _, t => ⟨t, Outcome.returned XST_SUCCESS⟩
  | remaining + 1, Index, output, t =>
    let Status1 := w.XAxiDma_SimpleTransfer Index Direction.XAXIDMA_DEVICE_TO_DMA
    let t1 := t ++ [Call.XAxiDma_SimpleTransfer Index Direction.XAXIDMA_DEVICE_TO_DMA Status1]
    if Status1 ≠ XST_SUCCESS then ⟨t1, Outcome.returned XST_FAILURE⟩ else
    let Status2 := w.XAxiDma_SimpleTransfer Index Direction.XAXIDMA_DMA_TO_DEVICE
    let t2 := t1 ++ [Call.XAxiDma_SimpleTransfer Index Direction.XAXIDMA_DMA_TO_DEVICE Status2]
    if Status2 ≠ XST_SUCCESS then ⟨t2, Outcome.returned XST_FAILURE⟩ else
    match busy_wait (w.XAxiDma_Busy Index) Index fuel 0 t2 with
    | (t3, false) => ⟨t3, Outcome.hang⟩
    | (t3, true) =>
      let t4 := t3 ++ [Call.CheckData Index]
      let c := CheckData (deref w.mmap_RxBuffer (w.RxBuffer Index)) output w.output_ref
      match c.result with
      | Outcome.returned Status =>
        if Status ≠ XST_SUCCESS then ⟨t4, Outcome.returned XST_FAILURE⟩
        else transfer_loop w fuel remaining (Index + 1) c.output t4
      | Outcome.fault => ⟨t4, Outcome.fault⟩
      | Outcome.hang => ⟨t4, Outcome.hang⟩

/-- The function `XAxiDma_SimplePollExample(DeviceId)`.  The values returned by the
three `mmap` calls are stored without any test (lines 277-282 and 292); the first access
through a pointer equal to `MAP_FAILED` faults.  The loading of the two text files
(lines 260-270) and the `open` of `/dev/mem` (line 276) are not traced. -/
def XAxiDma_SimplePollExample {F : Type} (w : World F) (DeviceId : Nat) (fuel : Nat) : Run :=
  let Tries := NUMBER_OF_TRANSFERS
  let TxBufferPtr := w.mmap_TxBuffer
  let t0 := [Call.mmap Region.TX_BUFFER_BASE w.mmap_TxBuffer,
             Call.mmap Region.RX_BUFFER_BASE w.mmap_RxBuffer,
             Call.XAxiDma_LookupConfig DeviceId (w.XAxiDma_LookupConfig DeviceId)]
  match w.XAxiDma_LookupConfig DeviceId with
  | none => ⟨t0, Outcome.returned XST_FAILURE⟩
  | some physical =>
    let BaseAddr := w.mmap_BaseAddr physical
    let Status := w.XAxiDma_CfgInitialize BaseAddr
    let t1 := t0 ++ [Call.mmap Region.BaseAddr BaseAddr,
                     Call.XAxiDma_CfgInitialize BaseAddr Status]
    if Status ≠ XST_SUCCESS then ⟨t1, Outcome.returned XST_FAILURE⟩ else
    let t2 := t1 ++ [Call.XAxiDma_HasSg w.XAxiDma_HasSg]
    if w.XAxiDma_HasSg then ⟨t2, Outcome.returned XST_FAILURE⟩ else
    let t3 := t2 ++ [Call.XAxiDma_IntrDisable Direction.XAXIDMA_DEVICE_TO_DMA,
                     Call.XAxiDma_IntrDisable Direction.XAXIDMA_DMA_TO_DEVICE,
                     Call.TxBuffer_write TxBufferPtr]
    match deref TxBufferPtr w.input with
    | none => ⟨t3, Outcome.fault⟩
    | some _ => transfer_loop w fuel Tries 0 w.output t3

/-- The function `main`: the size test of line 181, the call of
`XAxiDma_SimplePollExample(DMA_DEV_ID)`, and the status handed back. -/
def main {F : Type} (w : World F) (fuel : Nat) : Run :=
  if w.sizeof_complex ≠ 8 then ⟨[], Outcome.returned XST_FAILURE⟩ else
  let r := XAxiDma_SimplePollExample w w.DMA_DEV_ID fuel
  match r.result with
  | Outcome.returned Status =>
    if Status ≠ XST_SUCCESS then ⟨r.trace, Outcome.returned XST_FAILURE⟩
    else ⟨r.trace, Outcome.returned XST_SUCCESS⟩
  | Outcome.fault => ⟨r.trace, Outcome.fault⟩
  | Outcome.hang => ⟨r.trace, Outcome.hang⟩

/-- The conditions the harness treats as abnormal, as they show in the trace: no
configuration found, a failed initialisation, scatter-gather mode reported, a transfer
call with a status other than success. -/
def abnormal : Call → Bool
  | Call.XAxiDma_LookupConfig _ none => true
  | Call.XAxiDma_CfgInitialize _ Status => decide (Status ≠ XST_SUCCESS)
  | Call.XAxiDma_HasSg ret => ret
  | Call.XAxiDma_SimpleTransfer _ _ Status => decide (Status ≠ XST_SUCCESS)
  | _ => false

/-- A platform on which everything succeeds and both channels are idle at the first poll;
all samples are zero (`F` is `Nat`). -/
def world_ok : World Nat where
  sizeof_complex := 8
  DMA_DEV_ID := 0
  input := Samples.const ⟨0, 0⟩
  output_ref := Samples.const ⟨0, 0⟩
  output := Samples.const ⟨0, 0⟩
  mmap_TxBuffer := 4096
  mmap_RxBuffer := 8192
  XAxiDma_LookupConfig := fun _ => some 2684354560
  mmap_BaseAddr := fun _ => 12288
  XAxiDma_CfgInitialize := fun _ => XST_SUCCESS
  XAxiDma_HasSg := false
  XAxiDma_SimpleTransfer := fun _ _ => XST_SUCCESS
  XAxiDma_Busy := fun _ _ _ => false
  RxBuffer := fun _ => Samples.const ⟨0, 0⟩

/-- Every transmit-direction transfer call of the trace `t` comes directly after the
receive-direction transfer call of the same pass, and that call returned success. -/
def RxBeforeTx (t : List Call) : Prop :=
  ∀ (pre post : List Call) (Index : Nat) (Status : Int),
    t = pre ++ Call.XAxiDma_SimpleTransfer Index Direction.XAXIDMA_DMA_TO_DEVICE Status :: post →
    ∃ pre0 : List Call, pre = pre0 ++
      [Call.XAxiDma_SimpleTransfer Index Direction.XAXIDMA_DEVICE_TO_DMA XST_SUCCESS]

/-- A run is fail-fast when an abnormal condition in its trace is the last entry of the
trace and the run returned `XST_FAILURE`. -/
def FailFast (r : Run) : Prop :=
  ∀ (pre : List Call) (e : Call) (post : List Call),
    r.trace = pre ++ e :: post → abnormal e = true →
    post = [] ∧ r.result = Outcome.returned XST_FAILURE

/-- A platform on which the receive channel never becomes idle. -/
def world_rx_busy : World Nat :=
  { world_ok with XAxiDma_Busy := fun _ _ d => decide (d = Direction.XAXIDMA_DEVICE_TO_DMA) }

/-- A platform without a configuration for the device. -/
def world_no_config : World Nat :=
  { world_ok with XAxiDma_LookupConfig := fun _ => none }

/-- A platform on which `complex` is not 8 bytes long. -/
def world_bad_size : World Nat :=
  { world_ok with sizeof_complex := 16 }

/-- A platform on which the mapping of the transmit buffer fails. -/
def world_tx_unmapped : World Nat :=
  { world_ok with mmap_TxBuffer := MAP_FAILED }

/-- Index reversal with width 13 as a map of the index type of the arrays (used to state
the loop invariant; the result of `reverseBits` with width 13 is always below `FFT_LEN`). -/
def rev13 (j : Fin FFT_LEN) : Fin FFT_LEN :=
  if h : reverseBits j.val 13 < FFT_LEN then ⟨reverseBits j.val 13, h⟩ else j

/-! ## Lemmas on `reverseBits` -/

theorem shl1_eq {s : Nat} (h : s < 32) : shl1 s = 2 ^ s := by
  unfold shl1
  rw [Nat.one_shiftLeft]
  exact Nat.mod_eq_of_lt (Nat.pow_lt_pow_right (by decide) h)

theorem and_two_pow_ne_zero (num i : Nat) : (num &&& 2 ^ i ≠ 0) ↔ num.testBit i = true := by
  constructor
  · intro h
    obtain ⟨j, hj⟩ := Nat.ne_zero_implies_bit_true h
    rw [Nat.testBit_and, Nat.testBit_two_pow] at hj
    simp at hj
    obtain ⟨h1, h2⟩ := hj
    subst h2
    exact h1
  · intro h h0
    have : (num &&& 2 ^ i).testBit i = true := by
      rw [Nat.testBit_and, Nat.testBit_two_pow_self, h]; rfl
    rw [h0] at this
    simp at this

theorem reverseBits_body_eq (num n acc m : Nat) (hn : n ≤ 32) (hm : m < n) :
    reverseBits_body num n acc m
      = if num.testBit m = true then acc ||| 2 ^ (n - 1 - m) else acc := by
  unfold reverseBits_body
  rw [shl1_eq (show m < 32 by omega), shl1_eq (show n - 1 - m < 32 by omega)]
  by_cases hb : num.testBit m = true
  · rw [if_pos ((and_two_pow_ne_zero num m).2 hb), if_pos hb]
  · rw [if_neg (fun h => hb ((and_two_pow_ne_zero num m).1 h)), if_neg hb]

/-- Loop invariant of `reverseBits`: after the passes `i = 0, ..., m - 1`, bit `j` of
`reverse_num` is set exactly when `j = n - 1 - i` for a set bit `i < m` of `num`. -/
theorem testBit_fold (num n : Nat) (hn : n ≤ 32) (m : Nat) (hm : m ≤ n) (j : Nat) :
    ((List.range m).foldl (reverseBits_body num n) 0).testBit j
      = (decide (j < n ∧ n - 1 - j < m) && num.testBit (n - 1 - j)) := by
  induction m with
  | zero => simp
  | succ m ih =>
    have ih1 := ih (by omega)
    rw [List.range_succ, List.foldl_append, List.foldl_cons, List.foldl_nil,
      reverseBits_body_eq num n _ m hn (by omega)]
    by_cases hb : num.testBit m = true
    · rw [if_pos hb, Nat.testBit_or, ih1, Nat.testBit_two_pow]
      by_cases hj : n - 1 - m = j
      · have e : n - 1 - j = m := by omega
        have c : j < n ∧ n - 1 - j < m + 1 := by omega
        simp [hj, e, hb, c]
      · have c : (j < n ∧ n - 1 - j < m + 1) ↔ (j < n ∧ n - 1 - j < m) := by omega
        simp [hj, c]
    · rw [if_neg hb, ih1]
      by_cases hj : n - 1 - j = m
      · simp at hb
        simp [hj, hb]
      · have c : (j < n ∧ n - 1 - j < m + 1) ↔ (j < n ∧ n - 1 - j < m) := by omega
        simp [c]

theorem toUnsigned_of_bounds {n : Int} (h0 : 0 ≤ n) (h1 : n ≤ 31) :
    toUnsigned n = n.toNat ∧ n.toNat ≤ 31 := by
  unfold toUnsigned
  constructor
  · rw [Int.emod_eq_of_lt h0 (by omega)]
  · omega

/-- Bit `j` of `reverseBits num n`, for a width `0 ≤ n ≤ 31`. -/
theorem testBit_reverseBits (num : Nat) (n : Int) (h0 : 0 ≤ n) (h1 : n ≤ 31) (j : Nat) :
    (reverseBits num n).testBit j
      = (decide (j < n.toNat) && num.testBit (n.toNat - 1 - j)) := by
  obtain ⟨e, hb⟩ := toUnsigned_of_bounds h0 h1
  unfold reverseBits
  simp only [e]
  rw [testBit_fold num n.toNat (by omega) n.toNat (Nat.le_refl _) j]
  by_cases hj : j < n.toNat
  · have c : n.toNat - 1 - j < n.toNat := by omega
    simp only [hj, c, and_self, decide_True, Bool.true_and]
  · simp only [hj, false_and, decide_False, Bool.false_and]

theorem reverseBits_lt (num : Nat) (n : Int) (h0 : 0 ≤ n) (h1 : n ≤ 31) :
    reverseBits num n < 2 ^ n.toNat := by
  apply Nat.lt_pow_two_of_testBit
  intro i hi
  rw [testBit_reverseBits num n h0 h1]
  simp
  intro h; omega

theorem reverseBits_reverseBits (num : Nat) (n : Int) (h0 : 0 ≤ n) (h1 : n ≤ 31) :
    reverseBits (reverseBits num n) n = num % 2 ^ n.toNat := by
  apply Nat.eq_of_testBit_eq
  intro j
  rw [testBit_reverseBits _ n h0 h1, testBit_reverseBits _ n h0 h1, Nat.testBit_mod_two_pow]
  by_cases hj : j < n.toNat
  · have e : n.toNat - 1 - (n.toNat - 1 - j) = j := by omega
    have c : n.toNat - 1 - j < n.toNat := by omega
    simp [hj, e, c]
  · simp [hj]

theorem reverseBits_mod (num : Nat) (n : Int) (h0 : 0 ≤ n) (h1 : n ≤ 31) :
    reverseBits num n = reverseBits (num % 2 ^ n.toNat) n := by
  apply Nat.eq_of_testBit_eq
  intro j
  rw [testBit_reverseBits _ n h0 h1, testBit_reverseBits _ n h0 h1, Nat.testBit_mod_two_pow]
  by_cases hj : j < n.toNat
  · have c : n.toNat - 1 - j < n.toNat := by omega
    simp [hj, c]
  · simp [hj]

/-- With width 13 the result is an index below 8192. -/
theorem reverseBits13_lt (i : Nat) : reverseBits i 13 < 8192 :=
  reverseBits_lt i 13 (by decide) (by decide)

/-- With width 13, reversing twice gives back every index below 8192. -/
theorem reverseBits13_twice (i : Nat) (h : i < 8192) :
    reverseBits (reverseBits i 13) 13 = i := by
  rw [reverseBits_reverseBits i 13 (by decide) (by decide)]
  exact Nat.mod_eq_of_lt h

/-! ## Lemmas on the reordering loop -/

theorem Samples.get_set {F : Type} (a : Samples F) (k j : Fin FFT_LEN) (v : complex F) :
    (a.set k v).get j = if j = k then v else a.get j := by
  unfold Samples.get Samples.set
  simp only [Array.get_eq_getElem]
  rw [Array.getElem_set]
  by_cases h : j = k
  · subst h
    simp
  · have h2 : ¬ (k.val = j.val) := fun e => h (Fin.ext e.symm)
    simp [h, h2]

theorem Samples.ext {F : Type} (a b : Samples F) (h : ∀ j, a.get j = b.get j) : a = b := by
  cases a with
  | mk da sa =>
    cases b with
    | mk db sb =>
      have e : da = db := by
        apply Array.ext
        · rw [sa, sb]
        · intro i h1 h2
          exact h ⟨i, by rw [← sa]; exact h1⟩
      subst e
      rfl

theorem rev13_val (j : Fin FFT_LEN) : (rev13 j).val = reverseBits j.val 13 := by
  unfold rev13
  rw [dif_pos (show reverseBits j.val 13 < FFT_LEN from reverseBits13_lt j.val)]

theorem rev13_eq (j : Fin FFT_LEN) :
    rev13 j = ⟨reverseBits j.val 13, reverseBits13_lt j.val⟩ :=
  Fin.ext (rev13_val j)

theorem rev13_rev13 (j : Fin FFT_LEN) : rev13 (rev13 j) = j := by
  apply Fin.ext
  rw [rev13_val, rev13_val]
  exact reverseBits13_twice j.val j.isLt

theorem toUnsigned_index {i : Nat} (h : i < FFT_LEN) : toUnsigned (i : Int) = i := by
  unfold toUnsigned
  unfold FFT_LEN at h
  rw [Int.emod_eq_of_lt (by omega) (by omega)]
  simp

theorem toInt_reverseBits13 (i : Nat) : toInt (reverseBits i 13) = (reverseBits i 13 : Nat) := by
  have := reverseBits13_lt i
  unfold toInt
  rw [if_pos (by omega)]

theorem store_real_fin {F : Type} (a : Samples F) (k : Fin FFT_LEN) (v : F) :
    store_real a ((k.val : Nat) : Int) v = some (a.set k ⟨v, (a.get k).imag⟩) := by
  have hb : 0 ≤ ((k.val : Nat) : Int) ∧ ((k.val : Nat) : Int) < (FFT_LEN : Int) := by
    have := k.isLt
    omega
  unfold store_real
  rw [dif_pos hb]
  have e : (⟨((k.val : Nat) : Int).toNat, by have := k.isLt; omega⟩ : Fin FFT_LEN) = k :=
    Fin.ext (Int.toNat_ofNat k.val)
  simp only [e]

theorem store_imag_fin {F : Type} (a : Samples F) (k : Fin FFT_LEN) (v : F) :
    store_imag a ((k.val : Nat) : Int) v = some (a.set k ⟨(a.get k).real, v⟩) := by
  have hb : 0 ≤ ((k.val : Nat) : Int) ∧ ((k.val : Nat) : Int) < (FFT_LEN : Int) := by
    have := k.isLt
    omega
  unfold store_imag
  rw [dif_pos hb]
  have e : (⟨((k.val : Nat) : Int).toNat, by have := k.isLt; omega⟩ : Fin FFT_LEN) = k :=
    Fin.ext (Int.toNat_ofNat k.val)
  simp only [e]

theorem Samples.read_fin {F : Type} (a : Samples F) (k : Fin FFT_LEN) :
    a.read k.val = some (a.get k) := by
  unfold Samples.read Samples.get
  rw [Array.get_eq_getElem]
  exact Array.getElem?_eq_getElem (by rw [a.size_eq]; exact k.isLt)

/-- One pass of the reordering loop with width 13 stores the whole sample `RxPacket[Index]`
at the reversed index. -/
theorem CheckData_reorder_body_13 {F : Type} (RxPacket output : Samples F)
    (Index : Fin FFT_LEN) :
    CheckData_reorder_body 13 RxPacket output Index.val
      = some (output.set (rev13 Index) (RxPacket.get Index)) := by
  unfold CheckData_reorder_body
  simp only [toUnsigned_index Index.isLt, toInt_reverseBits13]
  have e1 := store_real_fin output (rev13 Index) (RxPacket.get Index).real
  have e2 := fun o : Samples F => store_imag_fin o (rev13 Index) (RxPacket.get Index).imag
  simp only [rev13_val] at e1 e2
  rw [Samples.read_fin, Option.some_bind, e1, Option.some_bind, Option.some_bind, e2]
  refine congrArg some ?_
  apply Samples.ext
  intro j
  simp only [Samples.get_set]
  by_cases hj : j = rev13 Index
  · simp [hj]
  · simp [hj]

/-- Loop invariant of the reordering loop with width 13: after the passes
`Index = 0, ..., m - 1` the entry `j` of `output` holds `RxPacket[reverseBits(j, 13)]`
if that index is below `m`, and is unchanged otherwise. -/
theorem CheckData_reorder_fold {F : Type} (RxPacket output : Samples F)
    (m : Nat) (hm : m ≤ FFT_LEN) :
    ∃ output1 : Samples F,
      (List.range m).foldlM (CheckData_reorder_body 13 RxPacket) output = some output1 ∧
      ∀ j, output1.get j
        = if (rev13 j).val < m then RxPacket.get (rev13 j) else output.get j := by
  induction m with
  | zero => exact ⟨output, by simp, by simp⟩
  | succ m ih =>
    obtain ⟨o, ho, hget⟩ := ih (by omega)
    refine ⟨o.set (rev13 ⟨m, by omega⟩) (RxPacket.get ⟨m, by omega⟩), ?_, ?_⟩
    · rw [List.range_succ, List.foldlM_append, ho]
      simp only [Option.bind_eq_bind, Option.some_bind, List.foldlM_cons, List.foldlM_nil]
      have hb := CheckData_reorder_body_13 RxPacket o ⟨m, by omega⟩
      simp only at hb
      rw [hb]
      simp only [Option.some_bind, Option.pure_def]
    · intro j
      rw [Samples.get_set, hget j]
      by_cases hj : j = rev13 ⟨m, by omega⟩
      · subst hj
        simp [rev13_rev13]
      · have hne : (rev13 j).val ≠ m := by
          intro e
          apply hj
          have : rev13 j = ⟨m, by omega⟩ := Fin.ext e
          rw [← this, rev13_rev13]
        have c : ((rev13 j).val < m + 1) ↔ ((rev13 j).val < m) := by omega
        simp [hj, c]

/-- The reordering loop with width 13 never stores outside `output`, and its result is
`RxPacket` composed with the index reversal. -/
theorem CheckData_reorder_13 {F : Type} (RxPacket output : Samples F) :
    ∃ output1 : Samples F, CheckData_reorder 13 RxPacket output = some output1 ∧
      ∀ j, output1.get j = RxPacket.get (rev13 j) := by
  obtain ⟨o, ho, hget⟩ := CheckData_reorder_fold RxPacket output FFT_LEN (Nat.le_refl _)
  refine ⟨o, ho, ?_⟩
  intro j
  rw [hget j, if_pos (rev13 j).isLt]

/-! ## Claims on `reverseBits` -/

/-- C1: `reverseBits` with width 13 is its own inverse on the index range: for every `i`
with `0 ≤ i ≤ 8191`, `reverseBits(reverseBits(i, 13), 13) == i`. -/
theorem reverseBits_13_involution (i : Nat) (h : i ≤ 8191) :
    reverseBits (reverseBits i 13) 13 = i :=
  reverseBits13_twice i (by omega)

theorem reverseBits_13_involution_witness :
    (5 : Nat) ≤ 8191 ∧ reverseBits 5 13 = 5120 ∧ reverseBits (reverseBits 5 13) 13 = 5 :=
  ⟨by decide, by decide, reverseBits_13_involution 5 (by decide)⟩

/-- C2: `reverseBits(., 13)` is a bijection of `[0, 8191]` onto itself: every index of the
range is sent into the range, distinct indices of the range get distinct results, every
index of the range is the result for some index of the range, and the image of the list
`0, 1, ..., 8191` is a permutation of that list. -/
theorem reverseBits_13_bijection :
    (∀ i : Nat, i ≤ 8191 → reverseBits i 13 ≤ 8191) ∧
    (∀ i j : Nat, i ≤ 8191 → j ≤ 8191 → reverseBits i 13 = reverseBits j 13 → i = j) ∧
    (∀ j : Nat, j ≤ 8191 → ∃ i : Nat, i ≤ 8191 ∧ reverseBits i 13 = j) ∧
    List.Perm ((List.range 8192).map (fun i => reverseBits i 13)) (List.range 8192) := by
  have inj : ∀ i j : Nat, i < 8192 → j < 8192 →
      reverseBits i 13 = reverseBits j 13 → i = j := by
    intro i j hi hj e
    rw [← reverseBits13_twice i hi, ← reverseBits13_twice j hj, e]
  refine ⟨?_, ?_, ?_, ?_⟩
  · intro i _
    have := reverseBits13_lt i
    omega
  · intro i j hi hj e
    exact inj i j (by omega) (by omega) e
  · intro j hj
    refine ⟨reverseBits j 13, ?_, reverseBits13_twice j (by omega)⟩
    have := reverseBits13_lt j
    omega
  · apply (List.perm_ext_iff_of_nodup ?_ (List.nodup_range 8192)).2
    · intro a
      simp only [List.mem_map, List.mem_range]
      constructor
      · rintro ⟨i, _, rfl⟩
        exact reverseBits13_lt i
      · intro ha
        exact ⟨reverseBits a 13, reverseBits13_lt a, reverseBits13_twice a ha⟩
    · apply List.Nodup.map_on _ (List.nodup_range 8192)
      intro x hx y hy e
      exact inj x y (List.mem_range.1 hx) (List.mem_range.1 hy) e

theorem reverseBits_13_bijection_witness :
    reverseBits 1 13 = 4096 ∧ reverseBits 1 13 ≤ 8191 ∧ (1 : Nat) = 1 ∧
      ∃ i : Nat, i ≤ 8191 ∧ reverseBits i 13 = 4096 :=
  ⟨by decide,
   reverseBits_13_bijection.1 1 (by decide),
   reverseBits_13_bijection.2.1 1 1 (by decide) (by decide) rfl,
   reverseBits_13_bijection.2.2.1 4096 (by decide)⟩

/-- C3: `reverseBits` reverses the low `num_of_bit` bits of its argument: for every 32-bit
unsigned `num`, every width `n` with `0 ≤ n ≤ 31` and every bit position `k` in `[0, n)`,
bit `n - 1 - k` of `reverseBits(num, n)` is set exactly when bit `k` of `num` is set, and
every bit of the result at a position `≥ n` is clear, so that the result is below `2 ^ n`. -/
theorem reverseBits_reverses_low_bits (num : Nat) (n : Int) (_hnum : num < 2 ^ 32)
    (h0 : 0 ≤ n) (h1 : n ≤ 31) :
    (∀ k : Nat, (k : Int) < n →
      (reverseBits num n).testBit (n.toNat - 1 - k) = num.testBit k) ∧
    (∀ p : Nat, n ≤ (p : Int) → (reverseBits num n).testBit p = false) ∧
    reverseBits num n < 2 ^ n.toNat := by
  refine ⟨?_, ?_, reverseBits_lt num n h0 h1⟩
  · intro k hk
    rw [testBit_reverseBits num n h0 h1]
    have c : n.toNat - 1 - k < n.toNat := by omega
    have e : n.toNat - 1 - (n.toNat - 1 - k) = k := by omega
    simp only [c, e, decide_True, Bool.true_and]
  · intro p hp
    rw [testBit_reverseBits num n h0 h1]
    have c : ¬ p < n.toNat := by omega
    simp only [c, decide_False, Bool.false_and]

theorem reverseBits_reverses_low_bits_witness :
    reverseBits 6 4 = 6 ∧ reverseBits 1 4 = 8 ∧
      ((reverseBits 1 4).testBit (((4 : Int).toNat) - 1 - 0) = (1 : Nat).testBit 0) ∧
      reverseBits 1 4 < 2 ^ (4 : Int).toNat :=
  ⟨by decide, by decide,
   (reverseBits_reverses_low_bits 1 4 (by decide) (by decide) (by decide)).1 0 (by decide),
   (reverseBits_reverses_low_bits 1 4 (by decide) (by decide) (by decide)).2.2⟩

/-- C10: the general double-reversal law: for every 32-bit unsigned `num` and every width
`n` with `0 ≤ n ≤ 31`, `reverseBits(reverseBits(num, n), n) == num mod 2 ^ n`; the bits of
`num` at positions `≥ n` are ignored, `reverseBits(num, n) == reverseBits(num mod 2 ^ n, n)`;
so reversing twice gives back `num` exactly when `num` is below `2 ^ n`. -/
theorem reverseBits_double_reversal (num : Nat) (n : Int) (_hnum : num < 2 ^ 32)
    (h0 : 0 ≤ n) (h1 : n ≤ 31) :
    reverseBits (reverseBits num n) n = num % 2 ^ n.toNat ∧
    reverseBits num n = reverseBits (num % 2 ^ n.toNat) n ∧
    (reverseBits (reverseBits num n) n = num ↔ num < 2 ^ n.toNat) := by
  refine ⟨reverseBits_reverseBits num n h0 h1, reverseBits_mod num n h0 h1, ?_⟩
  rw [reverseBits_reverseBits num n h0 h1]
  constructor
  · intro h
    rw [← h]
    exact Nat.mod_lt _ (Nat.pos_pow_of_pos _ (by decide))
  · intro h
    exact Nat.mod_eq_of_lt h

theorem reverseBits_double_reversal_witness :
    reverseBits 13 3 = 5 ∧ reverseBits 5 3 = 5 ∧
      reverseBits (reverseBits 13 3) 3 = 13 % 2 ^ (3 : Int).toNat ∧
      ¬ (reverseBits (reverseBits 13 3) 3 = 13) :=
  ⟨by decide, by decide,
   (reverseBits_double_reversal 13 3 (by decide) (by decide) (by decide)).1,
   fun h => absurd
     ((reverseBits_double_reversal 13 3 (by decide) (by decide) (by decide)).2.2.1 h)
     (by decide)⟩

/-! ## Claims on the reordering loop -/

/-- C4: the reordering loop of `CheckData`, with the width argument taken to be 13, places
every received sample at its bit-reversed position: the loop completes without a store
outside `output`, and afterwards, for every `i` in `[0, 8192)`, `output[reverseBits(i, 13)]`
equals `RxBuffer[i]` in the real and in the imaginary field; every one of the 8192 entries
of `output` is overwritten, `output[j] == RxBuffer[reverseBits(j, 13)]` for every `j`. -/
theorem CheckData_places_bit_reversed {F : Type} (RxBuffer output : Samples F) :
    ∃ output1 : Samples F,
      CheckData_reorder 13 RxBuffer output = some output1 ∧
      (∀ i : Fin FFT_LEN, ∃ h : reverseBits i.val 13 < FFT_LEN,
        (output1.get ⟨reverseBits i.val 13, h⟩).real = (RxBuffer.get i).real ∧
        (output1.get ⟨reverseBits i.val 13, h⟩).imag = (RxBuffer.get i).imag) ∧
      (∀ j : Fin FFT_LEN, ∃ h : reverseBits j.val 13 < FFT_LEN,
        output1.get j = RxBuffer.get ⟨reverseBits j.val 13, h⟩) := by
  obtain ⟨o, ho, hget⟩ := CheckData_reorder_13 RxBuffer output
  refine ⟨o, ho, ?_, ?_⟩
  · intro i
    refine ⟨reverseBits13_lt i.val, ?_⟩
    have e : rev13 ⟨reverseBits i.val 13, reverseBits13_lt i.val⟩ = i := by
      rw [← rev13_eq, rev13_rev13]
    rw [hget, e]
    exact ⟨rfl, rfl⟩
  · intro j
    refine ⟨reverseBits13_lt j.val, ?_⟩
    rw [hget, ← rev13_eq]

/-- C5: round trip of the reordering: for every array `a` of 8192 complex samples,
applying the `CheckData` reordering (`b[reverseBits(i, 13)] := a[i]` for every `i`) and
then the same reordering to `b` yields an array equal to `a`, whatever the two target
arrays held before. -/
theorem CheckData_reorder_round_trip {F : Type} (a out0 out1 : Samples F) :
    ∃ b c : Samples F,
      CheckData_reorder 13 a out0 = some b ∧ CheckData_reorder 13 b out1 = some c ∧ c = a := by
  obtain ⟨b, hb, hgetb⟩ := CheckData_reorder_13 a out0
  obtain ⟨c, hc, hgetc⟩ := CheckData_reorder_13 b out1
  refine ⟨b, c, hb, hc, ?_⟩
  apply Samples.ext
  intro j
  rw [hgetc, hgetb, rev13_rev13]

/-! ## Lemmas on traces -/

theorem snoc_split {α : Type} (t pre post : List α) (e x : α)
    (h : t ++ [e] = pre ++ x :: post) :
    (post = [] ∧ t = pre ∧ e = x) ∨ (∃ post0, post = post0 ++ [e] ∧ t = pre ++ x :: post0) := by
  rcases List.eq_nil_or_concat post with rfl | ⟨L, b, rfl⟩
  · left
    have := List.append_inj' h rfl
    exact ⟨rfl, this.1, by simpa using this.2⟩
  · right
    rw [List.concat_eq_append] at h
    have h2 : t ++ [e] = (pre ++ x :: L) ++ [b] := by simpa using h
    have := List.append_inj' h2 rfl
    have eb : e = b := by simpa using this.2
    refine ⟨L, ?_, this.1⟩
    rw [List.concat_eq_append, eb]

theorem RxBeforeTx_nil : RxBeforeTx [] := by
  intro pre post Index Status h
  simp at h

theorem RxBeforeTx_snoc (t : List Call) (e : Call) (ht : RxBeforeTx t)
    (he : ∀ Index Status,
      e = Call.XAxiDma_SimpleTransfer Index Direction.XAXIDMA_DMA_TO_DEVICE Status →
      ∃ pre0 : List Call, t = pre0 ++
        [Call.XAxiDma_SimpleTransfer Index Direction.XAXIDMA_DEVICE_TO_DMA XST_SUCCESS]) :
    RxBeforeTx (t ++ [e]) := by
  intro pre post Index Status h
  rcases snoc_split t pre post e _ h with ⟨_, h2, h3⟩ | ⟨post0, _, h2⟩
  · rw [← h2]
    exact he Index Status h3
  · exact ht pre post0 Index Status h2

theorem busy_wait_RxBeforeTx (Busy : Nat → Direction → Bool) (Index : Nat) :
    ∀ (fuel round : Nat) (t : List Call), RxBeforeTx t →
      RxBeforeTx (busy_wait Busy Index fuel round t).1 := by
  intro fuel
  induction fuel with
  | zero =>
    intro round t ht
    simpa [busy_wait] using ht
  | succ fuel ih =>
    intro round t ht
    have h1 := RxBeforeTx_snoc t (Call.XAxiDma_Busy Index Direction.XAXIDMA_DEVICE_TO_DMA
      (Busy round Direction.XAXIDMA_DEVICE_TO_DMA)) ht (by intro _ _ h; cases h)
    have h2 := RxBeforeTx_snoc _ (Call.XAxiDma_Busy Index Direction.XAXIDMA_DMA_TO_DEVICE
      (Busy round Direction.XAXIDMA_DMA_TO_DEVICE)) h1 (by intro _ _ h; cases h)
    simp only [busy_wait]
    split
    · exact ih _ _ h1
    · split
      · exact ih _ _ h2
      · exact h2

theorem transfer_loop_RxBeforeTx {F : Type} (w : World F) (fuel : Nat) :
    ∀ (remaining Index : Nat) (output : Samples F) (t : List Call), RxBeforeTx t →
      RxBeforeTx (transfer_loop w fuel remaining Index output t).trace := by
  intro remaining
  induction remaining with
  | zero =>
    intro Index output t ht
    simpa [transfer_loop] using ht
  | succ remaining ih =>
    intro Index output t ht
    have h1 := RxBeforeTx_snoc t (Call.XAxiDma_SimpleTransfer Index
      Direction.XAXIDMA_DEVICE_TO_DMA
      (w.XAxiDma_SimpleTransfer Index Direction.XAXIDMA_DEVICE_TO_DMA)) ht
      (by intro _ _ h; cases h)
    simp only [transfer_loop]
    split
    · exact h1
    · rename_i hs1
      have hs1e : w.XAxiDma_SimpleTransfer Index Direction.XAXIDMA_DEVICE_TO_DMA
          = XST_SUCCESS := not_not.1 hs1
      have h2 := RxBeforeTx_snoc _ (Call.XAxiDma_SimpleTransfer Index
        Direction.XAXIDMA_DMA_TO_DEVICE
        (w.XAxiDma_SimpleTransfer Index Direction.XAXIDMA_DMA_TO_DEVICE)) h1
        (by
          intro I S h
          injection h with hI _ _
          subst hI
          exact ⟨t, by rw [hs1e]⟩)
      split
      · exact h2
      · have h3 := busy_wait_RxBeforeTx (w.XAxiDma_Busy Index) Index fuel 0 _ h2
        split
        · rename_i t3 hbw
          rw [hbw] at h3
          exact h3
        · rename_i t3 hbw
          rw [hbw] at h3
          have h4 := RxBeforeTx_snoc t3 (Call.CheckData Index) h3 (by intro _ _ h; cases h)
          split
          · split
            · exact h4
            · exact ih _ _ _ h4
          · exact h4
          · exact h4

/-! ## Lemmas on fail-fast runs -/

theorem clean_snoc (t : List Call) (x : Call) (ht : ∀ e ∈ t, abnormal e = false)
    (hx : abnormal x = false) : ∀ e ∈ t ++ [x], abnormal e = false := by
  intro e he
  rcases List.mem_append.1 he with h | h
  · exact ht e h
  · rw [List.mem_singleton.1 h]
    exact hx

theorem FailFast_of_clean (t : List Call) (o : Outcome) (ht : ∀ e ∈ t, abnormal e = false) :
    FailFast ⟨t, o⟩ := by
  intro pre e post h he
  have hm : e ∈ t := by
    have h2 : t = pre ++ e :: post := h
    rw [h2]
    simp
  rw [ht e hm] at he
  cases he

theorem FailFast_fail (t : List Call) (x : Call) (ht : ∀ e ∈ t, abnormal e = false) :
    FailFast ⟨t ++ [x], Outcome.returned XST_FAILURE⟩ := by
  intro pre e post h he
  rcases snoc_split t pre post x e h with ⟨h1, _, _⟩ | ⟨post0, _, h2⟩
  · exact ⟨h1, rfl⟩
  · have hm : e ∈ t := by
      rw [h2]
      simp
    rw [ht e hm] at he
    cases he

theorem busy_wait_clean (Busy : Nat → Direction → Bool) (Index : Nat) :
    ∀ (fuel round : Nat) (t : List Call), (∀ e ∈ t, abnormal e = false) →
      ∀ e ∈ (busy_wait Busy Index fuel round t).1, abnormal e = false := by
  intro fuel
  induction fuel with
  | zero =>
    intro round t ht
    simpa [busy_wait] using ht
  | succ fuel ih =>
    intro round t ht
    have h1 := clean_snoc t (Call.XAxiDma_Busy Index Direction.XAXIDMA_DEVICE_TO_DMA
      (Busy round Direction.XAXIDMA_DEVICE_TO_DMA)) ht rfl
    have h2 := clean_snoc _ (Call.XAxiDma_Busy Index Direction.XAXIDMA_DMA_TO_DEVICE
      (Busy round Direction.XAXIDMA_DMA_TO_DEVICE)) h1 rfl
    simp only [busy_wait]
    split
    · exact ih _ _ h1
    · split
      · exact ih _ _ h2
      · exact h2

theorem abnormal_transfer_success (Index : Nat) (d : Direction) (Status : Int)
    (h : Status = XST_SUCCESS) : abnormal (Call.XAxiDma_SimpleTransfer Index d Status) = false := by
  simp [abnormal, h]

theorem transfer_loop_FailFast {F : Type} (w : World F) (fuel : Nat) :
    ∀ (remaining Index : Nat) (output : Samples F) (t : List Call),
      (∀ e ∈ t, abnormal e = false) →
      FailFast (transfer_loop w fuel remaining Index output t) := by
  intro remaining
  induction remaining with
  | zero =>
    intro Index output t ht
    simp only [transfer_loop]
    exact FailFast_of_clean _ _ ht
  | succ remaining ih =>
    intro Index output t ht
    simp only [transfer_loop]
    split
    · exact FailFast_fail _ _ ht
    · rename_i hs1
      have h1 := clean_snoc t _ ht (abnormal_transfer_success Index
        Direction.XAXIDMA_DEVICE_TO_DMA _ (not_not.1 hs1))
      split
      · exact FailFast_fail _ _ h1
      · rename_i hs2
        have h2 := clean_snoc _ _ h1 (abnormal_transfer_success Index
          Direction.XAXIDMA_DMA_TO_DEVICE _ (not_not.1 hs2))
        have h3 := busy_wait_clean (w.XAxiDma_Busy Index) Index fuel 0 _ h2
        split
        · rename_i t3 hbw
          rw [hbw] at h3
          exact FailFast_of_clean _ _ h3
        · rename_i t3 hbw
          rw [hbw] at h3
          have h4 := clean_snoc t3 (Call.CheckData Index) h3 rfl
          split
          · split
            · exact FailFast_of_clean _ _ h4
            · exact ih _ _ _ h4
          · exact FailFast_of_clean _ _ h4
          · exact FailFast_of_clean _ _ h4

theorem XAxiDma_SimplePollExample_FailFast {F : Type} (w : World F) (DeviceId fuel : Nat) :
    FailFast (XAxiDma_SimplePollExample w DeviceId fuel) := by
  have c2 : ∀ e ∈ [Call.mmap Region.TX_BUFFER_BASE w.mmap_TxBuffer,
      Call.mmap Region.RX_BUFFER_BASE w.mmap_RxBuffer], abnormal e = false := by
    intro e he
    simp only [List.mem_cons, List.mem_singleton, List.not_mem_nil, or_false] at he
    rcases he with rfl | rfl <;> rfl
  unfold XAxiDma_SimplePollExample
  simp only
  split
  · rename_i hl
    rw [hl]
    exact FailFast_fail _ _ c2
  · rename_i physical hl
    rw [hl]
    have c3 := clean_snoc _ (Call.XAxiDma_LookupConfig DeviceId (some physical)) c2 rfl
    have c4 := clean_snoc _ (Call.mmap Region.BaseAddr (w.mmap_BaseAddr physical)) c3 rfl
    split
    · have := FailFast_fail _ (Call.XAxiDma_CfgInitialize (w.mmap_BaseAddr physical)
        (w.XAxiDma_CfgInitialize (w.mmap_BaseAddr physical))) c4
      simpa using this
    · rename_i hs
      have c5 := clean_snoc _ (Call.XAxiDma_CfgInitialize (w.mmap_BaseAddr physical)
        (w.XAxiDma_CfgInitialize (w.mmap_BaseAddr physical))) c4
        (by simp [abnormal, not_not.1 hs])
      split
      · have := FailFast_fail _ (Call.XAxiDma_HasSg w.XAxiDma_HasSg) c5
        simpa using this
      · rename_i hsg
        have c6 := clean_snoc _ (Call.XAxiDma_HasSg w.XAxiDma_HasSg) c5
          (by simpa [abnormal] using hsg)
        have c7 := clean_snoc _ (Call.XAxiDma_IntrDisable Direction.XAXIDMA_DEVICE_TO_DMA)
          c6 rfl
        have c8 := clean_snoc _ (Call.XAxiDma_IntrDisable Direction.XAXIDMA_DMA_TO_DEVICE)
          c7 rfl
        have c9 := clean_snoc _ (Call.TxBuffer_write w.mmap_TxBuffer) c8 rfl
        have c9b : ∀ e ∈ [Call.mmap Region.TX_BUFFER_BASE w.mmap_TxBuffer,
            Call.mmap Region.RX_BUFFER_BASE w.mmap_RxBuffer,
            Call.XAxiDma_LookupConfig DeviceId (some physical)] ++
            [Call.mmap Region.BaseAddr (w.mmap_BaseAddr physical),
             Call.XAxiDma_CfgInitialize (w.mmap_BaseAddr physical)
               (w.XAxiDma_CfgInitialize (w.mmap_BaseAddr physical))] ++
            [Call.XAxiDma_HasSg w.XAxiDma_HasSg] ++
            [Call.XAxiDma_IntrDisable Direction.XAXIDMA_DEVICE_TO_DMA,
             Call.XAxiDma_IntrDisable Direction.XAXIDMA_DMA_TO_DEVICE,
             Call.TxBuffer_write w.mmap_TxBuffer], abnormal e = false := by
          simpa using c9
        split
        · exact FailFast_of_clean _ _ c9b
        · exact transfer_loop_FailFast w fuel _ _ _ _ c9b

/-! ## Lemmas on `CheckData` and on runs that differ in the data -/

theorem LOG2_FFT_LEN_eq : LOG2_FFT_LEN = 13 := rfl

theorem CheckData_some {F : Type} (RxBuffer output output_ref : Samples F) :
    (CheckData (some RxBuffer) output output_ref).result = Outcome.returned XST_SUCCESS := by
  obtain ⟨o, ho, _⟩ := CheckData_reorder_13 RxBuffer output
  unfold CheckData
  simp only
  rw [LOG2_FFT_LEN_eq, ho]

theorem CheckData_deref {F : Type} (ptr : Nat) (RxBuffer output output_ref : Samples F) :
    (CheckData (deref ptr RxBuffer) output output_ref).result
      = if ptr = MAP_FAILED then Outcome.fault else Outcome.returned XST_SUCCESS := by
  unfold deref
  by_cases h : ptr = MAP_FAILED
  · rw [if_pos h, if_pos h]
    rfl
  · rw [if_neg h, if_neg h]
    exact CheckData_some RxBuffer output output_ref

theorem transfer_loop_data_independent {F : Type} (w v : World F) (fuel : Nat)
    (h1 : v.XAxiDma_SimpleTransfer = w.XAxiDma_SimpleTransfer)
    (h2 : v.XAxiDma_Busy = w.XAxiDma_Busy) (h3 : v.mmap_RxBuffer = w.mmap_RxBuffer) :
    ∀ (remaining Index : Nat) (output output2 : Samples F) (t : List Call),
      transfer_loop v fuel remaining Index output2 t
        = transfer_loop w fuel remaining Index output t := by
  intro remaining
  induction remaining with
  | zero =>
    intro Index output output2 t
    simp only [transfer_loop]
  | succ remaining ih =>
    intro Index output output2 t
    simp only [transfer_loop, h1, h2, h3, CheckData_deref]
    split
    · rfl
    · split
      · rfl
      · split
        · rfl
        · by_cases hp : w.mmap_RxBuffer = MAP_FAILED
          · simp only [hp, if_true]
          · simp only [hp, if_false]
            split
            · rfl
            · exact ih _ _ _ _

theorem transfer_loop_rx_unmapped {F : Type} (w : World F) (fuel : Nat)
    (h : w.mmap_RxBuffer = MAP_FAILED) (remaining Index : Nat) (output : Samples F)
    (t : List Call) :
    (transfer_loop w fuel (remaining + 1) Index output t).result
      ≠ Outcome.returned XST_SUCCESS := by
  simp only [transfer_loop, CheckData_deref, h, if_true]
  split
  · simp [XST_FAILURE, XST_SUCCESS]
  · split
    · simp [XST_FAILURE, XST_SUCCESS]
    · split
      · simp
      · simp

/-- The normal path: when the configuration is found, the initialisation succeeds, the
device is not in scatter-gather mode, both buffers are mapped, both transfers of the
first pass are accepted and both channels are idle at the first poll, the run returns
`XST_SUCCESS` for any fuel of at least one round. -/
theorem XAxiDma_SimplePollExample_success {F : Type} (w : World F)
    (DeviceId fuel physical : Nat)
    (hl : w.XAxiDma_LookupConfig DeviceId = some physical)
    (hi : w.XAxiDma_CfgInitialize (w.mmap_BaseAddr physical) = XST_SUCCESS)
    (hsg : w.XAxiDma_HasSg = false)
    (htx : w.mmap_TxBuffer ≠ MAP_FAILED) (hrx : w.mmap_RxBuffer ≠ MAP_FAILED)
    (ht : ∀ d, w.XAxiDma_SimpleTransfer 0 d = XST_SUCCESS)
    (hb : ∀ d, w.XAxiDma_Busy 0 0 d = false) :
    (XAxiDma_SimplePollExample w DeviceId (fuel + 1)).result
      = Outcome.returned XST_SUCCESS := by
  unfold XAxiDma_SimplePollExample
  simp only [hl, hi, hsg, ne_eq, not_true_eq_false, if_false, Bool.false_eq_true]
  unfold deref
  rw [if_neg htx]
  simp only [NUMBER_OF_TRANSFERS, transfer_loop, busy_wait, ht, hb, ne_eq, not_true_eq_false,
    if_false, Bool.false_eq_true, CheckData_deref]
  rw [if_neg hrx]
  simp only [not_true_eq_false, if_false]

/-! ## Claims on the transfer protocol -/

/-- C6: transfer ordering in `XAxiDma_SimplePollExample`: in the trace of every run, every
transmit-direction transfer call (`XAXIDMA_DMA_TO_DEVICE`) comes directly after the
receive-direction transfer call (`XAXIDMA_DEVICE_TO_DMA`) of the same pass of the loop, and
that call returned success; so the receive call is strictly before the transmit call, and
no transmit-direction transfer is issued unless the receive-direction transfer of the same
pass was issued and returned success. -/
theorem transfer_ordering {F : Type} (w : World F) (DeviceId fuel : Nat)
    (pre post : List Call) (Index : Nat) (Status : Int)
    (h : (XAxiDma_SimplePollExample w DeviceId fuel).trace
      = pre ++ Call.XAxiDma_SimpleTransfer Index Direction.XAXIDMA_DMA_TO_DEVICE Status :: post) :
    ∃ pre0 : List Call, pre = pre0 ++
      [Call.XAxiDma_SimpleTransfer Index Direction.XAXIDMA_DEVICE_TO_DMA XST_SUCCESS] := by
  have key : RxBeforeTx (XAxiDma_SimplePollExample w DeviceId fuel).trace := by
    have n0 := RxBeforeTx_nil
    have n1 := RxBeforeTx_snoc _ (Call.mmap Region.TX_BUFFER_BASE w.mmap_TxBuffer) n0
      (by intro _ _ h; cases h)
    have n2 := RxBeforeTx_snoc _ (Call.mmap Region.RX_BUFFER_BASE w.mmap_RxBuffer) n1
      (by intro _ _ h; cases h)
    have n3 := RxBeforeTx_snoc _
      (Call.XAxiDma_LookupConfig DeviceId (w.XAxiDma_LookupConfig DeviceId)) n2
      (by intro _ _ h; cases h)
    simp only [List.nil_append, List.cons_append] at n3
    unfold XAxiDma_SimplePollExample
    simp only
    split
    · exact n3
    · rename_i physical hl
      have n4 := RxBeforeTx_snoc _ (Call.mmap Region.BaseAddr (w.mmap_BaseAddr physical)) n3
        (by intro _ _ h; cases h)
      have n5 := RxBeforeTx_snoc _ (Call.XAxiDma_CfgInitialize (w.mmap_BaseAddr physical)
        (w.XAxiDma_CfgInitialize (w.mmap_BaseAddr physical))) n4 (by intro _ _ h; cases h)
      have n6 := RxBeforeTx_snoc _ (Call.XAxiDma_HasSg w.XAxiDma_HasSg) n5
        (by intro _ _ h; cases h)
      have n7 := RxBeforeTx_snoc _
        (Call.XAxiDma_IntrDisable Direction.XAXIDMA_DEVICE_TO_DMA) n6
        (by intro _ _ h; cases h)
      have n8 := RxBeforeTx_snoc _
        (Call.XAxiDma_IntrDisable Direction.XAXIDMA_DMA_TO_DEVICE) n7
        (by intro _ _ h; cases h)
      have n9 := RxBeforeTx_snoc _ (Call.TxBuffer_write w.mmap_TxBuffer) n8
        (by intro _ _ h; cases h)
      simp only [List.nil_append, List.cons_append, List.append_assoc] at n5 n6 n9
      split
      · simpa using n5
      · split
        · simpa using n6
        · split
          · simpa using n9
          · apply transfer_loop_RxBeforeTx
            simpa using n9
  exact key pre post Index Status h

theorem transfer_ordering_witness :
    (XAxiDma_SimplePollExample world_rx_busy 0 2).result = Outcome.hang ∧
    ∃ pre0 : List Call,
      [Call.mmap Region.TX_BUFFER_BASE 4096, Call.mmap Region.RX_BUFFER_BASE 8192,
       Call.XAxiDma_LookupConfig 0 (some 2684354560), Call.mmap Region.BaseAddr 12288,
       Call.XAxiDma_CfgInitialize 12288 0, Call.XAxiDma_HasSg false,
       Call.XAxiDma_IntrDisable Direction.XAXIDMA_DEVICE_TO_DMA,
       Call.XAxiDma_IntrDisable Direction.XAXIDMA_DMA_TO_DEVICE,
       Call.TxBuffer_write 4096,
       Call.XAxiDma_SimpleTransfer 0 Direction.XAXIDMA_DEVICE_TO_DMA 0]
      = pre0 ++ [Call.XAxiDma_SimpleTransfer 0 Direction.XAXIDMA_DEVICE_TO_DMA XST_SUCCESS] :=
  ⟨rfl, transfer_ordering world_rx_busy 0 2 _
    [Call.XAxiDma_Busy 0 Direction.XAXIDMA_DEVICE_TO_DMA true,
     Call.XAxiDma_Busy 0 Direction.XAXIDMA_DEVICE_TO_DMA true] 0 0 rfl⟩

/-- C7: fail-fast status: if the size of `complex` is not 8 bytes, `main` returns
`XST_FAILURE` without any call; and whenever the trace of `main` holds an abnormal
condition (the configuration lookup returns none, the driver initialisation returns a
status other than success, the device reports scatter-gather mode, or a transfer call
returns a status other than success), that entry is the last of the trace (no later call,
no transfer and no data check, is made) and `main` returns `XST_FAILURE`. -/
theorem main_fail_fast {F : Type} (w : World F) (fuel : Nat) :
    (w.sizeof_complex ≠ 8 → main w fuel = ⟨[], Outcome.returned XST_FAILURE⟩) ∧
    (∀ (pre : List Call) (e : Call) (post : List Call),
      (main w fuel).trace = pre ++ e :: post → abnormal e = true →
      post = [] ∧ (main w fuel).result = Outcome.returned XST_FAILURE) := by
  constructor
  · intro h
    unfold main
    rw [if_pos h]
  · intro pre e post h he
    have key := XAxiDma_SimplePollExample_FailFast w w.DMA_DEV_ID fuel
    unfold main at h ⊢
    by_cases hs : w.sizeof_complex ≠ 8
    · rw [if_pos hs] at h
      simp at h
    · rw [if_neg hs] at h ⊢
      have ht : (XAxiDma_SimplePollExample w w.DMA_DEV_ID fuel).trace = pre ++ e :: post := by
        revert h
        simp only
        split
        · split <;> exact id
        · exact id
        · exact id
      obtain ⟨hp, hr⟩ := key pre e post ht he
      refine ⟨hp, ?_⟩
      simp only [hr]
      simp [XST_FAILURE, XST_SUCCESS]

theorem main_fail_fast_witness :
    main world_bad_size 3 = ⟨[], Outcome.returned XST_FAILURE⟩ ∧
    (main world_no_config 3).trace
      = [Call.mmap Region.TX_BUFFER_BASE 4096, Call.mmap Region.RX_BUFFER_BASE 8192]
        ++ Call.XAxiDma_LookupConfig 0 none :: [] ∧
    (main world_no_config 3).result = Outcome.returned XST_FAILURE :=
  ⟨(main_fail_fast world_bad_size 3).1 (by decide), rfl,
   ((main_fail_fast world_no_config 3).2
     [Call.mmap Region.TX_BUFFER_BASE 4096, Call.mmap Region.RX_BUFFER_BASE 8192]
     (Call.XAxiDma_LookupConfig 0 none) [] rfl rfl).2⟩

/-- C8 fails on the code: a failed mapping is not detected.  On the platform
`world_tx_unmapped` the `mmap` of the transmit buffer returns `MAP_FAILED`, every driver
call succeeds, and `XAxiDma_SimplePollExample` goes on to write the transmit buffer
through that pointer: the write is the last entry of the trace and the run ends in a
memory fault, not in a returned failure. -/
theorem failed_mapping_write_counterexample :
    world_tx_unmapped.mmap_TxBuffer = MAP_FAILED ∧
    XAxiDma_SimplePollExample world_tx_unmapped 0 1 =
      ⟨[Call.mmap Region.TX_BUFFER_BASE MAP_FAILED, Call.mmap Region.RX_BUFFER_BASE 8192,
        Call.XAxiDma_LookupConfig 0 (some 2684354560), Call.mmap Region.BaseAddr 12288,
        Call.XAxiDma_CfgInitialize 12288 XST_SUCCESS, Call.XAxiDma_HasSg false,
        Call.XAxiDma_IntrDisable Direction.XAXIDMA_DEVICE_TO_DMA,
        Call.XAxiDma_IntrDisable Direction.XAXIDMA_DMA_TO_DEVICE,
        Call.TxBuffer_write MAP_FAILED], Outcome.fault⟩ ∧
    Call.TxBuffer_write MAP_FAILED ∈ (XAxiDma_SimplePollExample world_tx_unmapped 0 1).trace :=
  ⟨rfl, rfl, by decide⟩

/-- C8, amended: if the `mmap` of the transmit buffer or of the receive buffer returns
`MAP_FAILED`, `XAxiDma_SimplePollExample` does not return `XST_SUCCESS`; and if the `mmap`
of the transmit buffer returns `MAP_FAILED`, no transfer is issued.  (The pointers are
never tested: the run ends at another check, in the poll loop, or with a memory fault at
the first access through the failed mapping.) -/
theorem failed_buffer_mapping_no_success {F : Type} (w : World F) (DeviceId fuel : Nat)
    (h : w.mmap_TxBuffer = MAP_FAILED ∨ w.mmap_RxBuffer = MAP_FAILED) :
    (XAxiDma_SimplePollExample w DeviceId fuel).result ≠ Outcome.returned XST_SUCCESS ∧
    (w.mmap_TxBuffer = MAP_FAILED → ∀ (Index : Nat) (d : Direction) (Status : Int),
      Call.XAxiDma_SimpleTransfer Index d Status
        ∉ (XAxiDma_SimplePollExample w DeviceId fuel).trace) := by
  have hne : Outcome.returned XST_FAILURE ≠ Outcome.returned XST_SUCCESS := by
    simp [XST_FAILURE, XST_SUCCESS]
  constructor
  · unfold XAxiDma_SimplePollExample
    simp only
    split
    · exact hne
    · split
      · exact hne
      · split
        · exact hne
        · rcases h with h | h
          · simp [deref, h]
          · unfold deref
            split
            · simp
            · exact transfer_loop_rx_unmapped w fuel h _ _ _ _
  · intro htx Index d Status
    unfold XAxiDma_SimplePollExample
    simp only
    split
    · simp
    · split
      · simp
      · split
        · simp
        · simp [deref, htx]

theorem failed_buffer_mapping_no_success_witness :
    world_tx_unmapped.mmap_TxBuffer = MAP_FAILED ∧
    (XAxiDma_SimplePollExample world_tx_unmapped 0 1).result
      ≠ Outcome.returned XST_SUCCESS :=
  ⟨rfl, (failed_buffer_mapping_no_success world_tx_unmapped 0 1 (Or.inl rfl)).1⟩

/-- C9: the validator is a diagnostic stub whose verdict does not depend on the data: for
every content of the receive buffer, of `output` and of the reference array `output_ref`,
`CheckData` returns `XST_SUCCESS`; and two runs of `XAxiDma_SimplePollExample` on platforms
that differ only in the received samples and the reference samples make the same calls
and end the same way, so no mismatch between `output` and `output_ref` is ever reported. -/
theorem CheckData_verdict_ignores_data {F : Type} :
    (∀ RxBuffer output output_ref : Samples F,
      (CheckData (some RxBuffer) output output_ref).result = Outcome.returned XST_SUCCESS) ∧
    (∀ (w : World F) (DeviceId fuel : Nat) (RxBuffer2 : Nat → Samples F)
      (output_ref2 : Samples F),
      XAxiDma_SimplePollExample
          { w with RxBuffer := RxBuffer2, output_ref := output_ref2 } DeviceId fuel
        = XAxiDma_SimplePollExample w DeviceId fuel) := by
  constructor
  · exact CheckData_some
  · intro w DeviceId fuel RxBuffer2 output_ref2
    unfold XAxiDma_SimplePollExample
    simp only
    split
    · rfl
    · split
      · rfl
      · split
        · rfl
        · split
          · rfl
          · exact transfer_loop_data_independent w
              { w with RxBuffer := RxBuffer2, output_ref := output_ref2 } fuel rfl rfl rfl
              _ _ _ _ _

end ZCU104
